import Mathlib

set_option maxRecDepth 100000

/-!
Verification development for the croxy reverse proxy.

The definitions below are a shallow embedding of the Rust sources:
`src/proxy.rs`, `src/router.rs`, `src/auto_router.rs`, `src/metrics.rs`
and `src/metrics_log.rs`.  JSON values (serde_json::Value) are modelled
by the `Json` inductive together with an executable parser and renderer;
numeric JSON values are modelled to integer precision, which covers every
number the proxy produces or consumes.
-/

namespace Croxy

/-- Model of `serde_json::Value`. -/
inductive Json where
  | null
  | bool (b : Bool)
  | num (n : Int)
  | str (s : String)
  | arr (elems : List Json)
  | obj (fields : List (String × Json))
deriving Repr

/-- The left curly brace character, written via its code point. -/
def braceL : Char := Char.ofNat 123

/-- The right curly brace character, written via its code point. -/
def braceR : Char := Char.ofNat 125

def lookupField : List (String × Json) → String → Option Json
  | [], _ => none
  | (k, v) :: rest, key => if k = key then some v else lookupField rest key

/-- Model of `Value::get(key)`: field access on objects, `None` otherwise. -/
def Json.lookup? : Json → String → Option Json
  | .obj fields, key => lookupField fields key
  | _, _ => none

/-- The keys of a JSON object, in order. -/
def Json.keys : Json → List String
  | .obj fields => fields.map (·.1)
  | _ => []

/-- Model of `Value::as_str`. -/
def Json.asStr : Json → Option String
  | .str s => some s
  | _ => none

/-- Model of `Value::as_array`. -/
def Json.asArr : Json → Option (List Json)
  | .arr xs => some xs
  | _ => none

/-- JSON whitespace accepted between tokens. -/
def jsonWs (c : Char) : Bool := c == ' ' || c == '\t' || c == '\n' || c == '\r'

def skipWs (cs : List Char) : List Char := cs.dropWhile jsonWs

def expectChars : List Char → List Char → Option (List Char)
  | [], cs => some cs
  | _, [] => none
  | l :: ls, c :: cs => if c == l then expectChars ls cs else none

def hexDigit? (c : Char) : Option Nat :=
  if '0' ≤ c ∧ c ≤ '9' then some (c.toNat - '0'.toNat)
  else if 'a' ≤ c ∧ c ≤ 'f' then some (c.toNat - 'a'.toNat + 10)
  else if 'A' ≤ c ∧ c ≤ 'F' then some (c.toNat - 'A'.toNat + 10)
  else none

/-- Parse the body of a JSON string literal (opening quote already consumed). -/
def parseStringBody : Nat → List Char → Option (List Char × List Char)
  | 0, _ => none
  | _, [] => none
  | fuel + 1, c :: rest =>
    if c == '"' then some ([], rest)
    else if c == '\\' then
      match rest with
      | [] => none
      | e :: rest2 =>
        if e == 'u' then
          match rest2 with
          | h1 :: h2 :: h3 :: h4 :: rest3 =>
            match hexDigit? h1, hexDigit? h2, hexDigit? h3, hexDigit? h4 with
            | some a, some b, some cc, some d =>
              match parseStringBody fuel rest3 with
              | some (acc, rem) =>
                some (Char.ofNat (((a * 16 + b) * 16 + cc) * 16 + d) :: acc, rem)
              | none => none
            | _, _, _, _ => none
          | _ => none
        else
          let dec : Option Char :=
            if e == '"' then some '"'
            else if e == '\\' then some '\\'
            else if e == '/' then some '/'
            else if e == 'n' then some '\n'
            else if e == 't' then some '\t'
            else if e == 'r' then some '\r'
            else if e == 'b' then some (Char.ofNat 8)
            else if e == 'f' then some (Char.ofNat 12)
            else none
          match dec with
          | some d =>
            match parseStringBody fuel rest2 with
            | some (acc, rem) => some (d :: acc, rem)
            | none => none
          | none => none
    else
      match parseStringBody fuel rest with
      | some (acc, rem) => some (c :: acc, rem)
      | none => none

def digitSpan (cs : List Char) : List Char × List Char :=
  (cs.takeWhile Char.isDigit, cs.dropWhile Char.isDigit)

def digitsToNat (ds : List Char) : Nat :=
  ds.foldl (fun acc c => acc * 10 + (c.toNat - '0'.toNat)) 0

/-- Parse a JSON number.  The value is modelled to integer precision: an
optional fraction and exponent are consumed but do not contribute. -/
def parseNumber (cs : List Char) : Option (Int × List Char) :=
  let (neg, cs1) :=
    match cs with
    | c :: rest => if c == '-' then (true, rest) else (false, cs)
    | [] => (false, cs)
  let (intPart, cs2) := digitSpan cs1
  if intPart.isEmpty then none
  else
    let cs3 :=
      match cs2 with
      | c :: rest => if c == '.' then (digitSpan rest).2 else cs2
      | [] => cs2
    let cs4 :=
      match cs3 with
      | c :: rest =>
        if c == 'e' || c == 'E' then
          match rest with
          | s :: rest2 =>
            if s == '+' || s == '-' then (digitSpan rest2).2 else (digitSpan rest).2
          | [] => rest
        else cs3
      | [] => cs3
    let n : Int := Int.ofNat (digitsToNat intPart)
    some (if neg then -n else n, cs4)

mutual

def parseJson : Nat → List Char → Option (Json × List Char)
  | 0, _ => none
  | fuel + 1, cs =>
    match skipWs cs with
    | [] => none
    | c :: rest =>
      if c == '"' then
        match parseStringBody (fuel + 1) rest with
        | some (acc, rem) => some (.str (String.mk acc), rem)
        | none => none
      else if c == braceL then
        parseObjFields fuel rest
      else if c == '[' then
        parseArrayElems fuel rest
      else if c == 'n' then
        match expectChars ['u', 'l', 'l'] rest with
        | some rem => some (.null, rem)
        | none => none
      else if c == 't' then
        match expectChars ['r', 'u', 'e'] rest with
        | some rem => some (.bool true, rem)
        | none => none
      else if c == 'f' then
        match expectChars ['a', 'l', 's', 'e'] rest with
        | some rem => some (.bool false, rem)
        | none => none
      else
        match parseNumber (c :: rest) with
        | some (n, rem) => some (.num n, rem)
        | none => none

/-- Parse array elements up to and including the closing bracket. -/
def parseArrayElems : Nat → List Char → Option (Json × List Char)
  | 0, _ => none
  | fuel + 1, cs =>
    match skipWs cs with
    | [] => none
    | c :: rest =>
      if c == ']' then some (.arr [], rest)
      else
        match parseJson fuel (c :: rest) with
        | some (v, rem) =>
          match skipWs rem with
          | ',' :: rem2 =>
            match parseArrayElems fuel rem2 with
            | some (.arr vs, rem3) => some (.arr (v :: vs), rem3)
            | _ => none
          | ']' :: rem2 => some (.arr [v], rem2)
          | _ => none
        | none => none

/-- Parse object fields up to and including the closing brace. -/
def parseObjFields : Nat → List Char → Option (Json × List Char)
  | 0, _ => none
  | fuel + 1, cs =>
    match skipWs cs with
    | [] => none
    | c :: rest =>
      if c == braceR then some (.obj [], rest)
      else if c == '"' then
        match parseStringBody (fuel + 1) rest with
        | some (keyAcc, rem) =>
          match skipWs rem with
          | ':' :: rem2 =>
            match parseJson fuel rem2 with
            | some (v, rem3) =>
              match skipWs rem3 with
              | ',' :: rem4 =>
                match parseObjFields fuel rem4 with
                | some (.obj fs, rem5) =>
                  some (.obj ((String.mk keyAcc, v) :: fs), rem5)
                | _ => none
              | c5 :: rem4 =>
                if c5 == braceR then some (.obj [(String.mk keyAcc, v)], rem4)
                else none
              | _ => none
            | none => none
          | _ => none
        | none => none
      else none

end

/-- Model of `serde_json::from_str::<Value>`: parse the whole input,
allowing trailing whitespace only. -/
def json_from_str (s : String) : Option Json :=
  match parseJson (s.data.length + 4) s.data with
  | some (v, rem) => if (skipWs rem).isEmpty then some v else none
  | none => none

def hexChar (n : Nat) : Char :=
  if n < 10 then Char.ofNat ('0'.toNat + n) else Char.ofNat ('a'.toNat + n - 10)

/-- JSON string escaping as performed by serde_json on serialization. -/
def escapeChar (c : Char) : String :=
  if c == '"' then "\\\""
  else if c == '\\' then "\\\\"
  else if c == '\n' then "\\n"
  else if c == '\r' then "\\r"
  else if c == '\t' then "\\t"
  else if c == Char.ofNat 8 then "\\b"
  else if c == Char.ofNat 12 then "\\f"
  else if c.toNat < 32 then
    "\\u00" ++ String.mk [hexChar (c.toNat / 16), hexChar (c.toNat % 16)]
  else String.singleton c

def escapeString (s : String) : String :=
  "\"" ++ String.join (s.data.map escapeChar) ++ "\""

mutual

/-- Model of `serde_json::to_string` (compact serialization). -/
def Json.render : Json → String
  | .null => "null"
  | .bool true => "true"
  | .bool false => "false"
  | .num n => toString n
  | .str s => escapeString s
  | .arr xs => "[" ++ renderElems xs ++ "]"
  | .obj fs => String.singleton braceL ++ renderFields fs ++ String.singleton braceR

def renderElems : List Json → String
  | [] => ""
  | [x] => x.render
  | x :: rest => x.render ++ "," ++ renderElems rest

def renderFields : List (String × Json) → String
  | [] => ""
  | [(k, v)] => escapeString k ++ ":" ++ v.render
  | (k, v) :: rest => escapeString k ++ ":" ++ v.render ++ "," ++ renderFields rest

end

end Croxy

namespace Croxy

/-- Whether `pat` is a leading prefix of `cs`. -/
def leadsWith : List Char → List Char → Bool
  | [], _ => true
  | _ :: _, [] => false
  | a :: as, b :: bs => a == b && leadsWith as bs

/-- Scan for an occurrence of `pat` at any position. -/
def containsSubstrAux (pat : List Char) : List Char → Bool
  | [] => leadsWith pat []
  | c :: rest => leadsWith pat (c :: rest) || containsSubstrAux pat rest

/-- Substring containment, modelling Rust `str::contains`. -/
def containsSubstr (s pat : String) : Bool := containsSubstrAux pat.data s.data

/-- Model of `str::trim_end_matches('/')`. -/
def trimTrailingSlashes (s : String) : String :=
  String.mk ((s.data.reverse.dropWhile (· == '/')).reverse)

/-- Model of `str::trim`: strip whitespace from both ends. -/
def rustTrim (s : String) : String :=
  String.mk
    (((s.data.dropWhile Char.isWhitespace).reverse.dropWhile Char.isWhitespace).reverse)

/-- Validity of a header value, modelling `HeaderValue::from_str`: visible
characters plus horizontal tab; DEL and other controls are rejected. -/
def validHeaderValue (s : String) : Bool :=
  s.data.all (fun c => c == '\t' || (32 ≤ c.toNat && c.toNat != 127))

/-- A header map, modelling `http::HeaderMap` at single-value granularity
(header names are kept in their normalized lowercase form). -/
abbrev HeaderMap : Type := List (String × String)

def hmLookup : HeaderMap → String → Option String
  | [], _ => none
  | (k, v) :: rest, key => if k = key then some v else hmLookup rest key

/-- Drop every entry carrying the given header name. -/
def hmErase : HeaderMap → String → HeaderMap
  | [], _ => []
  | (k1, v) :: rest, k => if k1 = k then hmErase rest k else (k1, v) :: hmErase rest k

/-- `HeaderMap::insert`: drop any existing values for the name, add the new one. -/
def hmInsert (m : HeaderMap) (k v : String) : HeaderMap :=
  hmErase m k ++ [(k, v)]

/-- `HeaderMap::remove`. -/
def hmRemove (m : HeaderMap) (k : String) : HeaderMap :=
  hmErase m k

end Croxy

namespace Croxy.Metrics

/-- `RoutingMethod` as referenced by `src/router.rs` and the proxy tests. -/
inductive RoutingMethod where
  | Default
  | Pattern
  | Auto
deriving Repr, DecidableEq

/-- `RequestRecord` as declared in `src/metrics.rs` (monotonic `timestamp`
modelled as an integer instant, `wallclock` as its RFC3339 rendering, and
`duration` in milliseconds).  Note the declared field names: the resolved
provider is stored in `backend` and the routing flag in `routed`. -/
structure RequestRecord where
  id : Nat
  timestamp : Int
  wallclock : String
  model : String
  backend : String
  routed : Bool
  status : Nat
  duration : Nat
  input_tokens : Nat
  output_tokens : Nat
  error_body : Option String
deriving Repr, DecidableEq

/-- The in-memory store guarded state: insertion-ordered records, the
id-to-position index, and the monotonic id counter. -/
structure StoreState where
  records : List RequestRecord
  id_index : List (Nat × Nat)
  next_id : Nat
deriving Repr, DecidableEq

/-- `MetricsStore::new`. -/
def StoreState.new : StoreState := { records := [], id_index := [], next_id := 1 }

def idxLookup : List (Nat × Nat) → Nat → Option Nat
  | [], _ => none
  | (k, v) :: rest, key => if k = key then some v else idxLookup rest key

/-- Rebuild of the id index from a record sequence (`evict_expired`'s loop). -/
def buildIndex : List RequestRecord → Nat → List (Nat × Nat)
  | [], _ => []
  | r :: rest, i => (r.id, i) :: buildIndex rest (i + 1)

/-- `MetricsStore::record_pending`: assign the next id, append, index the
position, return the id.  (No log line is written on this path.) -/
def record_pending (s : StoreState) (rec : RequestRecord) : Nat × StoreState :=
  let id := s.next_id
  let rec' := { rec with id := id }
  let idx := s.records.length
  (id, { records := s.records ++ [rec'],
         id_index := (id, idx) :: s.id_index,
         next_id := id + 1 })

/-- `MetricsStore::finalize_stream`: look the id up in the index, update
`output_tokens` and `duration` in place; unknown ids are a no-op. -/
def finalize_stream (s : StoreState) (id : Nat) (output_tokens : Nat)
    (duration : Nat) : StoreState :=
  match idxLookup s.id_index id with
  | none => s
  | some idx =>
    match s.records.get? idx with
    | none => s
    | some r =>
      { s with records :=
          s.records.set idx { r with output_tokens := output_tokens,
                                     duration := duration } }

/-- `MetricsStore::snapshot`: copies of the records inside the window. -/
def snapshot (s : StoreState) (now window : Int) : List RequestRecord :=
  s.records.filter (fun r => decide (now - window ≤ r.timestamp))

/-- `MetricsStore::evict_expired`: retain in-window records, then rebuild
the id index from the surviving sequence. -/
def evict_expired (s : StoreState) (now window : Int) : StoreState :=
  let records := s.records.filter (fun r => decide (now - window ≤ r.timestamp))
  { records := records, id_index := buildIndex records 0, next_id := s.next_id }

/-- The JSON object written per record by `MetricsStore::log_record`. -/
def logLineJson (r : RequestRecord) : Json :=
  Json.obj
    [ ("timestamp", Json.str r.wallclock)
    , ("model", Json.str r.model)
    , ("backend", Json.str r.backend)
    , ("status", Json.num r.status)
    , ("duration_ms", Json.num r.duration)
    , ("input_tokens", Json.num r.input_tokens)
    , ("output_tokens", Json.num r.output_tokens)
    , ("error", match r.error_body with
                | some e => Json.str e
                | none => Json.null) ]

/-- The serialized metrics-log line for a record. -/
def log_line (r : RequestRecord) : String := (logLineJson r).render

end Croxy.Metrics

namespace Croxy.Routing

open Croxy.Metrics (RoutingMethod)

/-- `ResolvedRoute` from `src/router.rs`. -/
structure ResolvedRoute where
  provider_name : String
  provider_url : String
  model_rewrite : Option String
  strip_auth : Bool
  api_key : Option String
  stub_count_tokens : Bool
  routing_method : RoutingMethod
deriving Repr, DecidableEq

/-- `RouteCandidate` from `src/router.rs`. -/
structure RouteCandidate where
  name : String
  description : String
deriving Repr, DecidableEq

/-- `CompiledRoute`: the compiled regex is modelled by its match predicate. -/
structure CompiledRoute where
  pattern : String → Bool
  provider_name : String
  provider_url : String
  model_rewrite : Option String
  strip_auth : Bool
  api_key : Option String
  stub_count_tokens : Bool

/-- `AutoRouteEntry` from `src/router.rs`. -/
structure AutoRouteEntry where
  name : String
  provider_name : String
  provider_url : String
  model_rewrite : Option String
  strip_auth : Bool
  api_key : Option String
  stub_count_tokens : Bool
deriving Repr, DecidableEq

/-- `AutoRouterConfig` (the router only keeps it when enabled). -/
structure AutoRouterConfig where
  url : String
  model : String
  timeout_ms : Nat
deriving Repr, DecidableEq

/-- The compiled `Router`. -/
structure Router where
  routes : List CompiledRoute
  auto_routes : List AutoRouteEntry
  auto_candidates : List RouteCandidate
  auto_router_config : Option AutoRouterConfig
  default : ResolvedRoute

/-- `Router::make_default`. -/
def Router.make_default (r : Router) : ResolvedRoute :=
  { provider_name := r.default.provider_name
    provider_url := r.default.provider_url
    model_rewrite := r.default.model_rewrite
    strip_auth := r.default.strip_auth
    api_key := r.default.api_key
    stub_count_tokens := r.default.stub_count_tokens
    routing_method := RoutingMethod.Default }

/-- `Router::resolve_pattern`: first matching compiled pattern wins. -/
def Router.resolve_pattern (r : Router) (model : String) : ResolvedRoute :=
  match r.routes.find? (fun route => route.pattern model) with
  | some route =>
    { provider_name := route.provider_name
      provider_url := route.provider_url
      model_rewrite := route.model_rewrite
      strip_auth := route.strip_auth
      api_key := route.api_key
      stub_count_tokens := route.stub_count_tokens
      routing_method := RoutingMethod.Pattern }
  | none => r.make_default

/-- `Router::resolve`.  The outcome of the awaited `classify` call is passed
in as `classifyOutcome`; it is consulted only when the model is `"auto"`,
the auto-router is configured, a message array is present and there is at
least one candidate — exactly the let-chain guarding the call in the source. -/
def Router.resolve (r : Router) (model : String) (messages : Option (List Json))
    (classifyOutcome : Option String) : ResolvedRoute :=
  if model = "auto" then
    match r.auto_router_config, messages with
    | some _, some _ =>
      if r.auto_candidates.isEmpty then r.make_default
      else
        match classifyOutcome with
        | some name =>
          match r.auto_routes.find? (fun e => e.name == name) with
          | some entry =>
            { provider_name := entry.provider_name
              provider_url := entry.provider_url
              model_rewrite := entry.model_rewrite
              strip_auth := entry.strip_auth
              api_key := entry.api_key
              stub_count_tokens := entry.stub_count_tokens
              routing_method := RoutingMethod.Auto }
          | none => r.make_default
        | none => r.make_default
    | _, _ => r.make_default
  else r.resolve_pattern model

end Croxy.Routing

namespace Croxy.AutoRouter

open Croxy.Routing (RouteCandidate AutoRouterConfig)

/-- The fixed classifier prompt template (`TASK_INSTRUCTION`). -/
def TASK_INSTRUCTION : String :=
  "You are a helpful assistant designed to find the best suited route.\nYou are provided with route description within <routes></routes> XML tags:\n<routes>\n\n\x7broutes\x7d\n\n</routes>\n\n<conversation>\n\n\x7bconversation\x7d\n\n</conversation>\n"

/-- The fixed classifier answer-format instructions (`FORMAT_PROMPT`). -/
def FORMAT_PROMPT : String :=
  "Your task is to decide which route is best suit with user intent on the conversation in <conversation></conversation> XML tags.  Follow the instruction:\n1. If the latest intent from user is irrelevant or user intent is full filled, response with other route \x7b\"route\": \"other\"\x7d.\n2. You must analyze the route descriptions and find the best match route for user latest intent.\n3. You only response the name of the route that best matches the user's request, use the exact name in the <routes></routes>.\n\nBased on your analysis, provide your response in the following JSON formats if you decide to match any route:\n\x7b\"route\": \"route_name\"\x7d\n"

/-- `build_prompt`: substitute the serialized candidates and the non-system
messages into the template, then append the format instructions. -/
def build_prompt (routes : List RouteCandidate) (messages : List Json) : String :=
  let route_defs := Json.arr (routes.map (fun r =>
    Json.obj [("name", Json.str r.name), ("description", Json.str r.description)]))
  let non_system := messages.filter (fun m =>
    ((m.lookup? "role").bind Json.asStr) ≠ some "system")
  let prompt :=
    (TASK_INSTRUCTION.replace "\x7broutes\x7d" route_defs.render).replace
      "\x7bconversation\x7d" (Json.arr non_system).render
  prompt ++ FORMAT_PROMPT

/-- The literal `{"route"` prefix of the fallback regex. -/
def routeLit : List Char := braceL :: ('"' :: 'r' :: 'o' :: 'u' :: 't' :: 'e' :: '"' :: [])

/-- `\s` of the fallback regex, at ASCII granularity. -/
def regexWs (c : Char) : Bool :=
  c == ' ' || c == '\t' || c == '\n' || c == '\r' || c == Char.ofNat 11 || c == Char.ofNat 12

/-- Match the regex `\x7b"route"\s*:\s*"([^"]+)"\x7d` anchored at the head of
the input, returning the capture group.  Because `[^"]+` cannot cross a
quote, the greedy match is the maximal run of non-quote characters. -/
def matchRouteAt (cs : List Char) : Option String :=
  match expectChars routeLit cs with
  | none => none
  | some r1 =>
    match r1.dropWhile regexWs with
    | ':' :: r3 =>
      match r3.dropWhile regexWs with
      | '"' :: r5 =>
        let name := r5.takeWhile (fun c => c != '"')
        if name.isEmpty then none
        else
          match r5.dropWhile (fun c => c != '"') with
          | '"' :: c7 :: _ => if c7 == braceR then some (String.mk name) else none
          | _ => none
      | _ => none
    | _ => none

/-- Leftmost match of the fallback `ROUTE_REGEX` over the raw text. -/
def findRouteCapture : List Char → Option String
  | [] => none
  | c :: rest =>
    match matchRouteAt (c :: rest) with
    | some name => some name
    | none => findRouteCapture rest

/-- The regex fallback branch of `parse_route_name`, validity check included. -/
def routeRegexFallback (text : String) (valid_names : List String) : Option String :=
  match findRouteCapture text.data with
  | some name =>
    if name != "other" && valid_names.contains name then some name else none
  | none => none

/-- `parse_route_name`: a successful full JSON parse that yields a `route`
string decides the result directly; the regex fallback runs only when the
parse fails or yields no route string. -/
def parse_route_name (text : String) (valid_names : List String) : Option String :=
  match json_from_str (rustTrim text) with
  | some v =>
    match (v.lookup? "route").bind Json.asStr with
    | some name =>
      if name != "other" && valid_names.contains name then some name else none
    | none => routeRegexFallback text valid_names
  | none => routeRegexFallback text valid_names

/-- The chat-completion-shaped request body posted by `classify`. -/
def classifyRequestBody (config : AutoRouterConfig) (prompt : String) : Json :=
  Json.obj
    [ ("model", Json.str config.model)
    , ("messages", Json.arr [Json.obj [("role", Json.str "user"),
                                       ("content", Json.str prompt)]])
    , ("max_tokens", Json.num 64)
    , ("temperature", Json.num 0)
    , ("response_format", Json.obj [("type", Json.str "json_object")]) ]

/-- Outcome of the classifier's HTTP POST: transport failure (network error
or timeout) or a response with a status and body. -/
inductive HttpOutcome where
  | failure
  | response (status : Nat) (body : String)

/-- Extraction of `choices[0].message.content`, modelling deserialization
into `ChatResponse`; any shape mismatch is a parse failure. -/
def chatContent (body : String) : Option String :=
  match json_from_str body with
  | none => none
  | some v =>
    match (v.lookup? "choices").bind Json.asArr with
    | none => none
    | some choices =>
      match choices.head? with
      | none => none
      | some choice =>
        ((choice.lookup? "message").bind (fun m => m.lookup? "content")).bind Json.asStr

/-- `classify`, with the HTTP transport abstracted as a function from the
serialized request body to an outcome.  The guard on empty candidate or
message lists precedes any use of the transport. -/
def classify (send : String → HttpOutcome) (config : AutoRouterConfig)
    (routes : List RouteCandidate) (messages : List Json) : Option String :=
  if routes.isEmpty || messages.isEmpty then none
  else
    let prompt := build_prompt routes messages
    let valid_names := routes.map (·.name)
    match send (classifyRequestBody config prompt).render with
    | .failure => none
    | .response status body =>
      if !(200 ≤ status && status ≤ 299) then none
      else
        match chatContent body with
        | none => none
        | some content => parse_route_name content valid_names

end Croxy.AutoRouter

namespace Croxy.Proxy

open Croxy.Routing (ResolvedRoute Router)
open Croxy.Metrics (RoutingMethod)

/-- The record literal constructed in `handle_request` (`base_record`).
`src/proxy.rs` names the resolved provider `provider` and tags the record
with `routing_method`; `src/metrics.rs` declares those slots as `backend`
and `routed`. -/
structure RequestRecord where
  id : Nat
  timestamp : Int
  wallclock : String
  model : String
  provider : String
  routing_method : RoutingMethod
  status : Nat
  duration : Nat
  input_tokens : Nat
  output_tokens : Nat
  error_body : Option String
deriving Repr, DecidableEq

/-- A metrics-store interaction performed while handling one request. -/
inductive MetricsEvent where
  | record (r : RequestRecord)
  | recordPending (r : RequestRecord)
deriving Repr, DecidableEq

/-- The inbound request as consumed by `handle_request`: `path` is
`uri.path()` and `pathAndQuery` is `uri.path_and_query()`. -/
structure Inbound where
  method : String
  path : String
  pathAndQuery : String
  headers : HeaderMap
  body : String
deriving Repr, DecidableEq

/-- Result of the upstream `send()`: a transport-level failure or a
response with status, headers and (fully buffered) body. -/
inductive UpstreamResult where
  | transportError
  | ok (status : Nat) (headers : HeaderMap) (body : String)
deriving Repr, DecidableEq

/-- Observable outcome of `handle_request`: the response returned to the
client, the outbound request if the upstream was contacted (url, headers,
body), and the metrics-store interactions. -/
structure HandleOutput where
  status : Nat
  headers : HeaderMap
  body : String
  upstream : Option (String × HeaderMap × String)
  events : List MetricsEvent
deriving Repr, DecidableEq

/-- `is_hop_by_hop`'s header-name list. -/
def hop_headers : List String :=
  ["connection", "keep-alive", "proxy-connection", "te", "trailer",
   "transfer-encoding", "upgrade"]

/-- `is_hop_by_hop`. -/
def is_hop_by_hop (name : String) : Bool := hop_headers.contains name

/-- One iteration of the header-copy loop in `build_forwarding_headers`. -/
def forwardStep (route : ResolvedRoute) (acc : HeaderMap) (kv : String × String) :
    HeaderMap :=
  if kv.1 == "host" || is_hop_by_hop kv.1 then acc
  else if route.strip_auth && (kv.1 == "authorization" || kv.1 == "x-api-key") then acc
  else hmInsert acc kv.1 kv.2

/-- `build_forwarding_headers`. -/
def build_forwarding_headers (original : HeaderMap) (route : ResolvedRoute)
    (body_len : Nat) : HeaderMap :=
  let headers : HeaderMap := original.foldl (forwardStep route) []
  let headers :=
    match route.api_key with
    | some key => if validHeaderValue key then hmInsert headers "x-api-key" key else headers
    | none => headers
  let headers :=
    if body_len > 0 then hmInsert headers "content-length" (toString body_len) else headers
  hmRemove headers "accept-encoding"

/-- One iteration of the header-copy loop in `filter_response_headers`. -/
def responseStep (acc : HeaderMap) (kv : String × String) : HeaderMap :=
  if is_hop_by_hop kv.1 || kv.1 == "content-encoding" then acc
  else hmInsert acc kv.1 kv.2

/-- `filter_response_headers`. -/
def filter_response_headers (upstream : HeaderMap) : HeaderMap :=
  upstream.foldl responseStep []

/-- Replacement of a field in a JSON object (`json["model"] = ...`); a
non-object body never reaches this assignment on the claims' paths and is
modelled as unchanged. -/
def Json.setKey (j : Json) (key : String) (v : Json) : Json :=
  match j with
  | Json.obj fields => Json.obj (setKeyFields fields key v)
  | other => other
where
  setKeyFields : List (String × Json) → String → Json → List (String × Json)
    | [], key, v => [(key, v)]
    | (k, w) :: rest, key, v =>
      if k = key then (k, v) :: rest else (k, w) :: setKeyFields rest key v

/-- `rewrite_model_in_body`: with a parsed body, set `model` and reserialize;
with no parsed body, return the original bytes unchanged.  (Reserializing a
`Value` cannot fail, so the `Err` branch of the source is unreachable.) -/
def rewrite_model_in_body (body_json : Option Json) (body_bytes : String)
    (new_model : String) : String :=
  match body_json with
  | some json => (Json.setKey json "model" (Json.str new_model)).render
  | none => body_bytes

/-- `parse_token_header`: header value parsed as `u64` (digits only). -/
def parse_token_header (headers : HeaderMap) (name : String) : Option Nat :=
  (hmLookup headers name).bind String.toNat?

/-- The body of `stub_count_tokens_response`. -/
def stub_body : String := (Json.obj [("input_tokens", Json.num 0)]).render

/-- `http::StatusCode`'s canonical reason phrases, for the codes the proxy
can see in practice. -/
def canonicalReason (status : Nat) : Option String :=
  if status = 200 then some "OK"
  else if status = 400 then some "Bad Request"
  else if status = 401 then some "Unauthorized"
  else if status = 403 then some "Forbidden"
  else if status = 404 then some "Not Found"
  else if status = 429 then some "Too Many Requests"
  else if status = 500 then some "Internal Server Error"
  else if status = 502 then some "Bad Gateway"
  else if status = 503 then some "Service Unavailable"
  else none

/-- `Display` for `http::StatusCode` (used by the `error_body` marker). -/
def statusDisplay (status : Nat) : String :=
  toString status ++ " " ++ (canonicalReason status).getD "<unknown status code>"

/-- Body acquisition: `some body_json` when the body is empty or parses as
JSON, `none` for the `400 invalid JSON body` rejection. -/
def parsedBody (body : String) : Option (Option Json) :=
  if body.isEmpty then some none
  else
    match json_from_str body with
    | some v => some (some v)
    | none => none

/-- `json.get("model").and_then(|m| m.as_str()).unwrap_or("")`. -/
def extractedModel (body_json : Option Json) : String :=
  match body_json with
  | some j => ((j.lookup? "model").bind Json.asStr).getD ""
  | none => ""

/-- `body_json.get("messages").and_then(|m| m.as_array())`. -/
def extractedMessages (body_json : Option Json) : Option (List Json) :=
  body_json.bind (fun j => (j.lookup? "messages").bind Json.asArr)

/-- The tail of `handle_request` from the count-tokens short-circuit on,
once the route has been resolved. -/
def forwardPhase (maxBody : Nat) (route : ResolvedRoute) (body_json : Option Json)
    (req : Inbound) (model : String) (startTs : Int) (wallclock : String)
    (elapsedMs : Nat) (up : UpstreamResult) : HandleOutput :=
  if containsSubstr req.path "/count_tokens" && route.stub_count_tokens then
    { status := 200, headers := [("content-type", "application/json")],
      body := stub_body, upstream := none, events := [] }
  else
    let final_body :=
      match route.model_rewrite with
      | some new_model => rewrite_model_in_body body_json req.body new_model
      | none => req.body
    let url := trimTrailingSlashes route.provider_url ++ req.pathAndQuery
    let fwd_headers := build_forwarding_headers req.headers route final_body.length
    match up with
    | UpstreamResult.transportError =>
      { status := 502, headers := [], body := "provider unreachable",
        upstream := some (url, fwd_headers, final_body), events := [] }
    | UpstreamResult.ok rawStatus uheaders ubody =>
      let ustatus := if 100 ≤ rawStatus ∧ rawStatus ≤ 999 then rawStatus else 500
      let body_len := req.body.length
      let input_tokens :=
        (parse_token_header uheaders "x-usage-input-tokens").getD (body_len / 4)
      let output_tokens :=
        (parse_token_header uheaders "x-usage-output-tokens").getD 0
      let response_headers := filter_response_headers uheaders
      let base : RequestRecord :=
        { id := 0, timestamp := startTs, wallclock := wallclock, model := model,
          provider := route.provider_name, routing_method := route.routing_method,
          status := ustatus, duration := elapsedMs, input_tokens := input_tokens,
          output_tokens := output_tokens, error_body := none }
      if 400 ≤ ustatus then
        let error_bytes := ubody.take maxBody
        let finalRec :=
          { base with error_body := some ("HTTP " ++ statusDisplay ustatus ++
              " (" ++ toString error_bytes.length ++ " bytes)") }
        { status := ustatus,
          headers := hmInsert response_headers "content-length"
            (toString error_bytes.length),
          body := error_bytes,
          upstream := some (url, fwd_headers, final_body),
          events := [MetricsEvent.record finalRec] }
      else
        { status := ustatus, headers := response_headers, body := ubody,
          upstream := some (url, fwd_headers, final_body),
          events := [MetricsEvent.recordPending base] }

/-- `handle_request`, with the time sources and the upstream transport made
explicit: `startTs`/`wallclock` are the instants captured on entry,
`elapsedMs` is the elapsed time observed when the base record is built, and
`up` is the outcome of the upstream `send()`. -/
def handle_request (maxBody : Nat) (router : Router) (req : Inbound)
    (classifyOutcome : Option String) (startTs : Int) (wallclock : String)
    (elapsedMs : Nat) (up : UpstreamResult) : HandleOutput :=
  if maxBody < req.body.length then
    { status := 400, headers := [], body := "failed to read body",
      upstream := none, events := [] }
  else
    match parsedBody req.body with
    | none =>
      { status := 400, headers := [], body := "invalid JSON body",
        upstream := none, events := [] }
    | some body_json =>
      let model := extractedModel body_json
      let messages := extractedMessages body_json
      let route := router.resolve model messages classifyOutcome
      forwardPhase maxBody route body_json req model startTs wallclock elapsedMs up

end Croxy.Proxy

namespace Croxy.MetricsLog

/-- Writer state of `MetricsLogger` together with the directory contents it
manages: `fs` maps a rotation index `i` to the lines of `path.i`, `active`
holds the lines of the active file. -/
structure LoggerState where
  fs : List (Nat × List String)
  active : List String
  max_size : Nat
  max_files : Nat
deriving Repr, DecidableEq

/-- `MetricsLogger::new` over an empty directory (`max_size` is
`max_size_mb · 1 MiB`). -/
def LoggerState.new (max_size_mb max_files : Nat) : LoggerState :=
  { fs := [], active := [], max_size := max_size_mb * 1024 * 1024,
    max_files := max_files }

def fsLookup : List (Nat × List String) → Nat → Option (List String)
  | [], _ => none
  | (k, v) :: rest, key => if k = key then some v else fsLookup rest key

/-- `fs::remove_file` on `path.i` (no-op when absent, as guarded). -/
def fsRemove : List (Nat × List String) → Nat → List (Nat × List String)
  | [], _ => []
  | (k, c) :: rest, i => if k = i then fsRemove rest i else (k, c) :: fsRemove rest i

/-- Create or overwrite `path.i`. -/
def fsSet (fs : List (Nat × List String)) (i : Nat) (c : List String) :
    List (Nat × List String) :=
  (i, c) :: fsRemove fs i

/-- `fs::rename(path.src, path.dst)` when the source exists. -/
def fsRename (fs : List (Nat × List String)) (src dst : Nat) :
    List (Nat × List String) :=
  match fsLookup fs src with
  | some c => fsSet (fsRemove fs src) dst c
  | none => fs

/-- The shift loop `for i in (1..max_files).rev()`: `shiftDown fs n`
renames `n → n+1`, then `n−1 → n`, …, down to `1 → 2`. -/
def shiftDown (fs : List (Nat × List String)) : Nat → List (Nat × List String)
  | 0 => fs
  | i + 1 => shiftDown (fsRename fs (i + 1) (i + 2)) i

/-- `MetricsLogger::rotate`: delete the oldest rotated file, shift the
remaining ones up, move the active file to `path.1`, reopen fresh. -/
def rotate (st : LoggerState) : LoggerState :=
  let fs1 := fsRemove st.fs st.max_files
  let fs2 := shiftDown fs1 (st.max_files - 1)
  { st with fs := fsSet fs2 1 st.active, active := [] }

/-- On-disk size of a line sequence (each line is followed by a newline). -/
def logSize (lines : List String) : Nat := (lines.map (fun l => l.length + 1)).sum

/-- `MetricsLogger::write_line`: append the line, then rotate when the
active file's size has reached `max_size`. -/
def write_line (st : LoggerState) (line : String) : LoggerState :=
  let st' := { st with active := st.active ++ [line] }
  if logSize st'.active < st'.max_size then st' else rotate st'

end Croxy.MetricsLog

namespace Croxy

lemma hmLookup_append (m1 m2 : HeaderMap) (k : String) :
    hmLookup (m1 ++ m2) k =
      match hmLookup m1 k with
      | some v => some v
      | none => hmLookup m2 k := by
  induction m1 with
  | nil => rfl
  | cons kv rest ih =>
    obtain ⟨k1, v1⟩ := kv
    by_cases hj : k1 = k
    · simp [hmLookup, hj]
    · simp [hmLookup, hj, ih]

lemma hmLookup_hmErase_ne (m : HeaderMap) (k j : String) (h : j ≠ k) :
    hmLookup (hmErase m k) j = hmLookup m j := by
  induction m with
  | nil => rfl
  | cons kv rest ih =>
    obtain ⟨k1, v1⟩ := kv
    by_cases hk : k1 = k
    · have hkj : ¬ (k1 = j) := fun he => h (hk ▸ he.symm)
      simp [hmErase, hk, hmLookup, hkj, ih, Ne.symm h]
    · by_cases hj : k1 = j
      · simp [hmErase, hk, hmLookup, hj, h]
      · simp [hmErase, hk, hmLookup, hj, ih]

lemma hmLookup_hmErase_self (m : HeaderMap) (k : String) :
    hmLookup (hmErase m k) k = none := by
  induction m with
  | nil => rfl
  | cons kv rest ih =>
    obtain ⟨k1, v1⟩ := kv
    by_cases hk : k1 = k
    · simp [hmErase, hk, ih]
    · simp [hmErase, hk, hmLookup, ih]

lemma hmLookup_hmInsert_self (m : HeaderMap) (k v : String) :
    hmLookup (hmInsert m k v) k = some v := by
  unfold hmInsert
  rw [hmLookup_append, hmLookup_hmErase_self m k]
  simp [hmLookup]

lemma hmLookup_hmInsert_ne (m : HeaderMap) (k v j : String) (h : j ≠ k) :
    hmLookup (hmInsert m k v) j = hmLookup m j := by
  unfold hmInsert
  rw [hmLookup_append, hmLookup_hmErase_ne m k j h]
  cases hv : hmLookup m j with
  | none => simp [hmLookup, Ne.symm h]
  | some w => rfl

lemma hmLookup_hmRemove_self (m : HeaderMap) (k : String) :
    hmLookup (hmRemove m k) k = none := hmLookup_hmErase_self m k

lemma hmLookup_hmRemove_ne (m : HeaderMap) (k j : String) (h : j ≠ k) :
    hmLookup (hmRemove m k) j = hmLookup m j := hmLookup_hmErase_ne m k j h

end Croxy

namespace Croxy.Proxy

open Croxy.Routing (ResolvedRoute)

/-- Header names the copy loop of `build_forwarding_headers` never emits. -/
def droppedOutbound (route : ResolvedRoute) (k : String) : Prop :=
  k = "host" ∨ is_hop_by_hop k = true ∨
    (route.strip_auth = true ∧ (k = "authorization" ∨ k = "x-api-key"))

lemma forwardFold_lookup_none (route : ResolvedRoute) (l : List (String × String))
    (acc : HeaderMap) (k : String) (hk : droppedOutbound route k)
    (hacc : hmLookup acc k = none) :
    hmLookup (l.foldl (forwardStep route) acc) k = none := by
  induction l generalizing acc with
  | nil => exact hacc
  | cons kv rest ih =>
    simp only [List.foldl_cons]
    apply ih
    unfold forwardStep
    by_cases h1 : (kv.1 == "host" || is_hop_by_hop kv.1) = true
    · simp [h1, hacc]
    · by_cases h2 :
        (route.strip_auth && (kv.1 == "authorization" || kv.1 == "x-api-key")) = true
      · simp [h1, h2, hacc]
      · have hne : k ≠ kv.1 := by
          intro he
          simp only [Bool.or_eq_true, beq_iff_eq] at h1
          push_neg at h1
          rcases hk with hhost | hhop | ⟨hstrip, hauth⟩
          · exact h1.1 (he ▸ hhost)
          · exact absurd (he ▸ hhop) (by simpa using h1.2)
          · simp only [Bool.and_eq_true, Bool.or_eq_true, beq_iff_eq] at h2
            push_neg at h2
            rcases hauth with ha | ha
            · exact (h2 hstrip).1 (he ▸ ha)
            · exact (h2 hstrip).2 (he ▸ ha)
        rw [if_neg h1, if_neg h2, hmLookup_hmInsert_ne _ _ _ _ hne]
        exact hacc

lemma responseFold_lookup_none (l : List (String × String)) (acc : HeaderMap)
    (k : String) (hk : is_hop_by_hop k = true ∨ k = "content-encoding")
    (hacc : hmLookup acc k = none) :
    hmLookup (l.foldl responseStep acc) k = none := by
  induction l generalizing acc with
  | nil => exact hacc
  | cons kv rest ih =>
    simp only [List.foldl_cons]
    apply ih
    unfold responseStep
    by_cases h1 : (is_hop_by_hop kv.1 || kv.1 == "content-encoding") = true
    · simp [h1, hacc]
    · have hne : k ≠ kv.1 := by
        intro he
        simp only [Bool.or_eq_true, beq_iff_eq] at h1
        push_neg at h1
        rcases hk with hhop | hce
        · exact absurd (he ▸ hhop) (by simpa using h1.1)
        · exact h1.2 (he ▸ hce)
      rw [if_neg h1, hmLookup_hmInsert_ne _ _ _ _ hne]
      exact hacc

lemma bfh_lookup_none (original : HeaderMap) (route : ResolvedRoute) (body_len : Nat)
    (k : String) (hk : droppedOutbound route k)
    (hkx : k ≠ "x-api-key") (hkc : k ≠ "content-length") (hka : k ≠ "accept-encoding") :
    hmLookup (build_forwarding_headers original route body_len) k = none := by
  unfold build_forwarding_headers
  rw [hmLookup_hmRemove_ne _ _ _ hka]
  have h1 : hmLookup (original.foldl (forwardStep route) []) k = none :=
    forwardFold_lookup_none route original [] k hk rfl
  have h2 :
      hmLookup (match route.api_key with
        | some key =>
          if validHeaderValue key then
            hmInsert (original.foldl (forwardStep route) []) "x-api-key" key
          else original.foldl (forwardStep route) []
        | none => original.foldl (forwardStep route) []) k = none := by
    cases route.api_key with
    | none => exact h1
    | some key =>
      by_cases hv : validHeaderValue key
      · simp only [if_pos hv]
        rw [hmLookup_hmInsert_ne _ _ _ _ hkx]
        exact h1
      · simp only [if_neg hv]
        exact h1
  by_cases hb : body_len > 0
  · simp only [if_pos hb]
    rw [hmLookup_hmInsert_ne _ _ _ _ hkc]
    exact h2
  · simp only [if_neg hb]
    exact h2

lemma bfh_lookup_xapikey (original : HeaderMap) (route : ResolvedRoute) (body_len : Nat) :
    hmLookup (build_forwarding_headers original route body_len) "x-api-key" =
      (match route.api_key with
       | some key =>
         if validHeaderValue key then some key
         else hmLookup (original.foldl (forwardStep route) []) "x-api-key"
       | none => hmLookup (original.foldl (forwardStep route) []) "x-api-key") := by
  unfold build_forwarding_headers
  rw [hmLookup_hmRemove_ne _ _ _ (by decide)]
  have step3 : ∀ m : HeaderMap,
      hmLookup (if body_len > 0 then hmInsert m "content-length" (toString body_len) else m)
        "x-api-key" = hmLookup m "x-api-key" := by
    intro m
    by_cases hb : body_len > 0
    · simp only [if_pos hb]
      exact hmLookup_hmInsert_ne _ _ _ _ (by decide)
    · simp only [if_neg hb]
  rw [step3]
  cases route.api_key with
  | none => rfl
  | some key =>
    by_cases hv : validHeaderValue key
    · simp only [if_pos hv]
      exact hmLookup_hmInsert_self _ _ _
    · simp only [if_neg hv]

end Croxy.Proxy

namespace Croxy.Proxy

open Croxy.Routing (ResolvedRoute)

/-- C5: For every inbound header map and resolved route, the outbound header
map produced by `build_forwarding_headers` never contains `host`, any
hop-by-hop header, or `accept-encoding`; under `strip_auth` neither the
client's `authorization` nor its `x-api-key` survives (any `x-api-key` in
the output can only be the route's configured key); a valid configured
`api_key` becomes the outbound `x-api-key`, replacing any client value; and
`filter_response_headers` never passes a hop-by-hop header or
`content-encoding` through to the client. -/
theorem forwarding_and_response_header_filtering
    (original uheaders : HeaderMap) (route : ResolvedRoute) (body_len : Nat) :
    hmLookup (build_forwarding_headers original route body_len) "host" = none ∧
    (∀ h, is_hop_by_hop h = true →
      hmLookup (build_forwarding_headers original route body_len) h = none) ∧
    hmLookup (build_forwarding_headers original route body_len) "accept-encoding" = none ∧
    (route.strip_auth = true →
      hmLookup (build_forwarding_headers original route body_len) "authorization" = none) ∧
    (route.strip_auth = true → ∀ v,
      hmLookup (build_forwarding_headers original route body_len) "x-api-key" = some v →
      route.api_key = some v ∧ validHeaderValue v = true) ∧
    (∀ k, route.api_key = some k → validHeaderValue k = true →
      hmLookup (build_forwarding_headers original route body_len) "x-api-key" = some k) ∧
    (∀ h, is_hop_by_hop h = true ∨ h = "content-encoding" →
      hmLookup (filter_response_headers uheaders) h = none) := by
  refine ⟨?_, ?_, ?_, ?_, ?_, ?_, ?_⟩
  · exact bfh_lookup_none original route body_len "host" (Or.inl rfl)
      (by decide) (by decide) (by decide)
  · intro h hh
    have hne : ∀ s : String, is_hop_by_hop s = false → h ≠ s := by
      intro s hs he
      rw [he, hs] at hh
      exact Bool.false_ne_true hh
    exact bfh_lookup_none original route body_len h (Or.inr (Or.inl hh))
      (hne _ (by decide)) (hne _ (by decide)) (hne _ (by decide))
  · unfold build_forwarding_headers
    exact hmLookup_hmRemove_self _ _
  · intro hstrip
    exact bfh_lookup_none original route body_len "authorization"
      (Or.inr (Or.inr ⟨hstrip, Or.inl rfl⟩)) (by decide) (by decide) (by decide)
  · intro hstrip v hv
    have hfold : hmLookup (original.foldl (forwardStep route) []) "x-api-key" = none :=
      forwardFold_lookup_none route original [] "x-api-key"
        (Or.inr (Or.inr ⟨hstrip, Or.inr rfl⟩)) rfl
    rw [bfh_lookup_xapikey] at hv
    cases hak : route.api_key with
    | none =>
      rw [hak] at hv
      simp only [hfold] at hv
      exact absurd hv (by simp)
    | some key =>
      rw [hak] at hv
      by_cases hval : validHeaderValue key
      · simp only [if_pos hval] at hv
        obtain rfl : key = v := Option.some.inj hv
        exact ⟨rfl, hval⟩
      · simp only [if_neg hval, hfold] at hv
        exact absurd hv (by simp)
  · intro k hak hval
    rw [bfh_lookup_xapikey, hak]
    simp only [if_pos hval]
  · intro h hh
    exact responseFold_lookup_none uheaders [] h hh rfl

/-- Witness for `forwarding_and_response_header_filtering` at a concrete
header map and route. -/
theorem forwarding_and_response_header_filtering_witness :
    hmLookup
      (build_forwarding_headers
        [("host", "example.com"), ("connection", "keep-alive"),
         ("authorization", "Bearer t"), ("x-api-key", "client-key"),
         ("accept-encoding", "gzip"), ("content-type", "application/json")]
        { provider_name := "ollama", provider_url := "http://localhost:11434",
          model_rewrite := none, strip_auth := true, api_key := some "ollama",
          stub_count_tokens := true,
          routing_method := Croxy.Metrics.RoutingMethod.Pattern }
        42) "x-api-key" = some "ollama" := by
  have h := forwarding_and_response_header_filtering
    [("host", "example.com"), ("connection", "keep-alive"),
     ("authorization", "Bearer t"), ("x-api-key", "client-key"),
     ("accept-encoding", "gzip"), ("content-type", "application/json")]
    []
    { provider_name := "ollama", provider_url := "http://localhost:11434",
      model_rewrite := none, strip_auth := true, api_key := some "ollama",
      stub_count_tokens := true,
      routing_method := Croxy.Metrics.RoutingMethod.Pattern }
    42
  exact h.2.2.2.2.2.1 "ollama" rfl (by decide)

end Croxy.Proxy

namespace Croxy.Proxy

open Croxy.Routing (Router ResolvedRoute)

lemma handle_request_eq_forwardPhase (maxBody : Nat) (router : Router)
    (req : Inbound) (co : Option String) (startTs : Int) (wc : String)
    (el : Nat) (up : UpstreamResult) (bj : Option Json)
    (hcap : ¬ maxBody < req.body.length)
    (hpb : parsedBody req.body = some bj) :
    handle_request maxBody router req co startTs wc el up =
      forwardPhase maxBody
        (router.resolve (extractedModel bj) (extractedMessages bj) co)
        bj req (extractedModel bj) startTs wc el up := by
  unfold handle_request
  rw [if_neg hcap, hpb]

end Croxy.Proxy

namespace Croxy.Routing

open Croxy.Metrics (RoutingMethod)

/-- Concrete router for the C2 counterexample: one pattern route whose
compiled regex matches the literal `"auto"`, a distinct default provider,
and no auto-classifier configured. -/
def cexPatternRouter : Router :=
  { routes := [{ pattern := fun s => s == "auto", provider_name := "pat",
                 provider_url := "http://pat", model_rewrite := none,
                 strip_auth := false, api_key := none, stub_count_tokens := false }]
    auto_routes := []
    auto_candidates := []
    auto_router_config := none
    default := { provider_name := "def", provider_url := "http://def",
                 model_rewrite := none, strip_auth := false, api_key := none,
                 stub_count_tokens := false,
                 routing_method := RoutingMethod.Default } }

/-- C2 counterexample: for model exactly `"auto"` with no usable classifier
result, `resolve` returns the default route (routing method `Default`) even
though the first compiled pattern matches `"auto"` — the pattern walk that
`resolve_pattern` would perform (yielding `Pattern`) is never consulted. -/
theorem resolve_auto_pattern_not_consulted_cex :
    cexPatternRouter.routes.head?.map (fun r => r.pattern "auto") = some true ∧
    (cexPatternRouter.resolve "auto" (some []) none).routing_method =
      RoutingMethod.Default ∧
    (cexPatternRouter.resolve_pattern "auto").routing_method =
      RoutingMethod.Pattern := ⟨rfl, rfl, rfl⟩

/-- C2 amended: for model `"auto"`, whenever the classifier is not invoked
or produces no name resolvable in `auto_routes`, `resolve` returns the
default provider's route with routing method `Default`, without consulting
`pattern_routes`; the pattern walk applies only to models other than
`"auto"`. -/
theorem resolve_auto_fallthrough_default_amended :
    (∀ (r : Router) (msgs : Option (List Json)),
      r.resolve "auto" msgs none = r.make_default) ∧
    (∀ (r : Router) (msgs : Option (List Json)) (name : String),
      r.auto_routes.find? (fun e => e.name == name) = none →
      r.resolve "auto" msgs (some name) = r.make_default) ∧
    (∀ (r : Router) (model : String) (msgs : Option (List Json)) (co : Option String),
      model ≠ "auto" → r.resolve model msgs co = r.resolve_pattern model) ∧
    (∀ r : Router, (r.make_default).routing_method = RoutingMethod.Default) := by
  refine ⟨?_, ?_, ?_, fun _ => rfl⟩
  · intro r msgs
    unfold Router.resolve
    rw [if_pos rfl]
    cases r.auto_router_config <;> cases msgs <;> try rfl
    by_cases h : r.auto_candidates.isEmpty <;> simp [h]
  · intro r msgs name hfind
    unfold Router.resolve
    rw [if_pos rfl]
    cases r.auto_router_config <;> cases msgs <;> try rfl
    by_cases h : r.auto_candidates.isEmpty <;> simp [h, hfind]
  · intro r model msgs co hne
    unfold Router.resolve
    rw [if_neg hne]

/-- Witness for `resolve_auto_fallthrough_default_amended` at a concrete
router and classifier outcome. -/
theorem resolve_auto_fallthrough_default_amended_witness :
    cexPatternRouter.resolve "auto" (some []) (some "coding") =
      cexPatternRouter.make_default :=
  resolve_auto_fallthrough_default_amended.2.1 cexPatternRouter (some []) "coding" rfl

end Croxy.Routing

namespace Croxy.Metrics

/-- Concrete record for the C3 counterexample (the record the store's own
unit test writes through the logger). -/
def c3Record : RequestRecord :=
  { id := 1, timestamp := 0, wallclock := "2024-01-01T00:00:00+00:00",
    model := "claude-opus-4-6", backend := "anthropic", routed := false,
    status := 200, duration := 500, input_tokens := 100, output_tokens := 200,
    error_body := none }

/-- C3 counterexample: the metrics log line stores the resolved provider
name under the key `backend`; no `provider` key exists in the emitted JSON
object (which parses back as valid JSON). -/
theorem log_line_provider_key_absent_cex :
    (logLineJson c3Record).lookup? "provider" = none ∧
    (logLineJson c3Record).lookup? "backend" = some (Json.str "anthropic") ∧
    json_from_str (log_line c3Record) = some (logLineJson c3Record) :=
  ⟨rfl, rfl, rfl⟩

/-- C3 amended: every metrics log line is the serialization of a JSON
object with exactly the eight fields `timestamp`, `model`, `backend`,
`status`, `duration_ms`, `input_tokens`, `output_tokens`, `error`; the
resolved provider name is stored under `backend`, and there is no
`provider` key. -/
theorem log_line_eight_fields_backend_amended (r : RequestRecord) :
    log_line r = (logLineJson r).render ∧
    (logLineJson r).keys =
      ["timestamp", "model", "backend", "status", "duration_ms",
       "input_tokens", "output_tokens", "error"] ∧
    (logLineJson r).lookup? "timestamp" = some (Json.str r.wallclock) ∧
    (logLineJson r).lookup? "model" = some (Json.str r.model) ∧
    (logLineJson r).lookup? "backend" = some (Json.str r.backend) ∧
    (logLineJson r).lookup? "status" = some (Json.num r.status) ∧
    (logLineJson r).lookup? "duration_ms" = some (Json.num r.duration) ∧
    (logLineJson r).lookup? "input_tokens" = some (Json.num r.input_tokens) ∧
    (logLineJson r).lookup? "output_tokens" = some (Json.num r.output_tokens) ∧
    (logLineJson r).lookup? "error" =
      some (match r.error_body with
            | some e => Json.str e
            | none => Json.null) ∧
    (logLineJson r).lookup? "provider" = none :=
  ⟨rfl, rfl, rfl, rfl, rfl, rfl, rfl, rfl, rfl, rfl, rfl⟩

/-- Concrete store for the C8 counterexample: one record sitting exactly on
the retention boundary at observation time 100 with window 60. -/
def c8Record : RequestRecord :=
  { id := 1, timestamp := 40, wallclock := "2024-01-01T00:00:40+00:00",
    model := "claude-opus-4-6", backend := "anthropic", routed := false,
    status := 200, duration := 500, input_tokens := 100, output_tokens := 200,
    error_body := none }

def c8Store : StoreState :=
  { records := [c8Record], id_index := [(1, 0)], next_id := 2 }

/-- C8 counterexample: a record with `now − timestamp = window` is still
returned by `snapshot` (violating the claimed strict inequality) and is
retained by `evict_expired` (violating "removes exactly the records with
now − timestamp ≥ window"). -/
theorem snapshot_window_boundary_cex :
    snapshot c8Store 100 60 = [c8Record] ∧
    ¬ ((100 : Int) - c8Record.timestamp < 60) ∧
    (evict_expired c8Store 100 60).records = [c8Record] ∧
    (100 : Int) - c8Record.timestamp ≥ 60 := by
  refine ⟨rfl, by decide, rfl, by decide⟩

/-- C8 amended: window membership is the closed condition
`now − timestamp ≤ window`: `snapshot` returns exactly the records
satisfying it, and `evict_expired` removes exactly the records with
`now − timestamp > window`, keeping the live records in their original
order (the surviving sequence is a sublist of the original). -/
theorem snapshot_evict_window_closed_boundary_amended
    (s : StoreState) (now window : Int) (r : RequestRecord) :
    (r ∈ snapshot s now window ↔ r ∈ s.records ∧ now - r.timestamp ≤ window) ∧
    (r ∈ (evict_expired s now window).records ↔
      r ∈ s.records ∧ now - r.timestamp ≤ window) ∧
    (evict_expired s now window).records.Sublist s.records := by
  have hiff : (decide (now - window ≤ r.timestamp) = true) ↔
      (now - r.timestamp ≤ window) := by
    rw [decide_eq_true_eq]
    exact sub_le_comm
  refine ⟨?_, ?_, ?_⟩
  · rw [snapshot, List.mem_filter]
    exact and_congr_right (fun _ => hiff)
  · show r ∈ s.records.filter _ ↔ _
    rw [List.mem_filter]
    exact and_congr_right (fun _ => hiff)
  · exact List.filter_sublist _

/-- Witness for `snapshot_evict_window_closed_boundary_amended`: the
boundary record is a member of the snapshot. -/
theorem snapshot_evict_window_closed_boundary_amended_witness :
    c8Record ∈ snapshot c8Store 100 60 :=
  (snapshot_evict_window_closed_boundary_amended c8Store 100 60 c8Record).1.mpr
    ⟨by decide, by decide⟩

end Croxy.Metrics

namespace Croxy.AutoRouter

open Croxy.Routing (RouteCandidate AutoRouterConfig)

/-- `parse_route_name` as the claim words it: whenever the direct JSON path
does not return a route string passing the validity check, fall back to the
regex over the raw text. -/
def parse_route_name_claimed (text : String) (valid_names : List String) :
    Option String :=
  match json_from_str (rustTrim text) with
  | some v =>
    match (v.lookup? "route").bind Json.asStr with
    | some name =>
      if name != "other" && valid_names.contains name then some name
      else routeRegexFallback text valid_names
    | none => routeRegexFallback text valid_names
  | none => routeRegexFallback text valid_names

/-- Classifier output that parses as JSON with an invalid top-level route
but contains a regex-matching valid route in its raw text. -/
def c9Text : String :=
  "\x7b\"route\": \"bad\", \"inner\": \x7b\"route\": \"code_gen\"\x7d\x7d"

/-- C9 counterexample: when the full JSON parse succeeds but yields an
invalid route name, the code returns `None` without consulting the regex,
while the claimed always-fall-back extraction would return the regex
capture `"code_gen"`. -/
theorem parse_route_name_no_fallback_after_parse_cex :
    parse_route_name c9Text ["code_gen"] = none ∧
    routeRegexFallback c9Text ["code_gen"] = some "code_gen" ∧
    parse_route_name_claimed c9Text ["code_gen"] = some "code_gen" :=
  ⟨rfl, rfl, rfl⟩

/-- C9 amended: `classify` returns `None` independently of the transport
when the candidate or message list is empty, and on transport failure,
non-2xx status, or an unusable body; route-name extraction decides directly
from a successful full JSON parse yielding a route string (returning `None`
for `"other"` or a non-candidate without any regex fallback), applies the
regex fallback exactly when the parse fails or yields no route string, and
only ever returns candidate names other than `"other"`. -/
theorem classify_failure_modes_amended :
    (∀ (send send' : String → HttpOutcome) (config : AutoRouterConfig)
       (routes : List RouteCandidate) (messages : List Json),
      (routes.isEmpty || messages.isEmpty) = true →
      classify send config routes messages = none ∧
      classify send config routes messages = classify send' config routes messages) ∧
    (∀ (config : AutoRouterConfig) (routes : List RouteCandidate)
       (messages : List Json),
      classify (fun _ => HttpOutcome.failure) config routes messages = none) ∧
    (∀ (config : AutoRouterConfig) (routes : List RouteCandidate)
       (messages : List Json) (status : Nat) (body : String),
      (200 ≤ status && status ≤ 299) = false →
      classify (fun _ => HttpOutcome.response status body) config routes messages
        = none) ∧
    (∀ (config : AutoRouterConfig) (routes : List RouteCandidate)
       (messages : List Json) (status : Nat) (body : String),
      chatContent body = none →
      classify (fun _ => HttpOutcome.response status body) config routes messages
        = none) ∧
    (∀ (text : String) (names : List String) (v : Json) (name : String),
      json_from_str (rustTrim text) = some v →
      (v.lookup? "route").bind Json.asStr = some name →
      parse_route_name text names =
        (if name != "other" && names.contains name then some name else none)) ∧
    (∀ (text : String) (names : List String),
      json_from_str (rustTrim text) = none →
      parse_route_name text names = routeRegexFallback text names) ∧
    (∀ (text : String) (names : List String) (v : Json),
      json_from_str (rustTrim text) = some v →
      (v.lookup? "route").bind Json.asStr = none →
      parse_route_name text names = routeRegexFallback text names) ∧
    (∀ (text : String) (names : List String) (name : String),
      parse_route_name text names = some name →
      name ∈ names ∧ name ≠ "other") := by
  have valid_of : ∀ (names : List String) (name : String),
      (name != "other" && names.contains name) = true →
      name ∈ names ∧ name ≠ "other" := by
    intro names name h
    rw [Bool.and_eq_true] at h
    refine ⟨List.mem_of_elem_eq_true h.2, by simpa using h.1⟩
  have sound_fallback : ∀ (text : String) (names : List String) (name : String),
      routeRegexFallback text names = some name → name ∈ names ∧ name ≠ "other" := by
    intro text names name h
    unfold routeRegexFallback at h
    cases hf : findRouteCapture text.data with
    | none =>
      simp only [hf] at h
      exact absurd h (by simp)
    | some nm =>
      simp only [hf] at h
      by_cases hc : (nm != "other" && names.contains nm) = true
      · rw [if_pos hc] at h
        have hnm := Option.some.inj h
        exact hnm ▸ valid_of names nm hc
      · rw [if_neg hc] at h
        exact absurd h (by simp)
  refine ⟨?_, ?_, ?_, ?_, ?_, ?_, ?_, ?_⟩
  · intro send send' config routes messages h
    unfold classify
    rw [if_pos h, if_pos h]
    exact ⟨rfl, rfl⟩
  · intro config routes messages
    unfold classify
    by_cases h : (routes.isEmpty || messages.isEmpty) = true
    · rw [if_pos h]
    · rw [if_neg h]
  · intro config routes messages status body hst
    unfold classify
    by_cases h : (routes.isEmpty || messages.isEmpty) = true
    · rw [if_pos h]
    · rw [if_neg h]
      simp only [hst, Bool.not_false, if_pos]
  · intro config routes messages status body hcc
    unfold classify
    by_cases h : (routes.isEmpty || messages.isEmpty) = true
    · rw [if_pos h]
    · rw [if_neg h]
      by_cases hst : (200 ≤ status && status ≤ 299) = true
      · simp [hst, hcc]
      · have hf : (200 ≤ status && status ≤ 299) = false :=
          Bool.eq_false_iff.mpr hst
        simp [hf]
  · intro text names v name hjson hname
    unfold parse_route_name
    simp only [hjson, hname]
  · intro text names hjson
    unfold parse_route_name
    simp only [hjson]
  · intro text names v hjson hname
    unfold parse_route_name
    simp only [hjson, hname]
  · intro text names name h
    unfold parse_route_name at h
    cases hjson : json_from_str (rustTrim text) with
    | none =>
      simp only [hjson] at h
      exact sound_fallback text names name h
    | some v =>
      simp only [hjson] at h
      cases hname : (v.lookup? "route").bind Json.asStr with
      | none =>
        simp only [hname] at h
        exact sound_fallback text names name h
      | some nm =>
        simp only [hname] at h
        by_cases hc : (nm != "other" && names.contains nm) = true
        · rw [if_pos hc] at h
          have hnm := Option.some.inj h
          exact hnm ▸ valid_of names nm hc
        · rw [if_neg hc] at h
          exact absurd h (by simp)

/-- Witness for `classify_failure_modes_amended`: a 500 from the classifier
endpoint yields `None`. -/
theorem classify_failure_modes_amended_witness :
    classify (fun _ => HttpOutcome.response 500 "internal error")
      { url := "http://127.0.0.1:9999/v1/chat/completions", model := "test-model",
        timeout_ms := 2000 }
      [{ name := "code_gen", description := "code generation" }]
      [Json.obj [("role", Json.str "user"), ("content", Json.str "write some code")]]
      = none :=
  classify_failure_modes_amended.2.2.1
    { url := "http://127.0.0.1:9999/v1/chat/completions", model := "test-model",
      timeout_ms := 2000 }
    [{ name := "code_gen", description := "code generation" }]
    [Json.obj [("role", Json.str "user"), ("content", Json.str "write some code")]]
    500 "internal error" (by decide)

end Croxy.AutoRouter

namespace Croxy.Proxy

open Croxy.Routing (Router ResolvedRoute)
open Croxy.Metrics (RoutingMethod)

lemma forwardPhase_upstream_cases (maxBody : Nat) (route : ResolvedRoute)
    (bj : Option Json) (req : Inbound) (model : String) (startTs : Int)
    (wc : String) (el : Nat) (up : UpstreamResult) :
    (forwardPhase maxBody route bj req model startTs wc el up).upstream = none ∨
    (forwardPhase maxBody route bj req model startTs wc el up).upstream =
      some (trimTrailingSlashes route.provider_url ++ req.pathAndQuery,
            build_forwarding_headers req.headers route
              (match route.model_rewrite with
               | some nm => rewrite_model_in_body bj req.body nm
               | none => req.body).length,
            match route.model_rewrite with
            | some nm => rewrite_model_in_body bj req.body nm
            | none => req.body) := by
  unfold forwardPhase
  by_cases hstub :
      (containsSubstr req.path "/count_tokens" && route.stub_count_tokens) = true
  · rw [if_pos hstub]
    exact Or.inl rfl
  · rw [if_neg hstub]
    cases up with
    | transportError => exact Or.inr rfl
    | ok st uh ub =>
      right
      dsimp only
      repeat' split
      all_goals rfl

/-- C10: a route's model rewrite never synthesizes a body: with no parsed
JSON body `rewrite_model_in_body` returns the original bytes unchanged, and
a request arriving with an empty body is forwarded upstream with an empty
body. -/
theorem rewrite_model_empty_body_frame :
    (∀ (body_bytes new_model : String),
      rewrite_model_in_body none body_bytes new_model = body_bytes) ∧
    (∀ (maxBody : Nat) (router : Router) (mth p pq : String) (hdrs : HeaderMap)
       (co : Option String) (startTs : Int) (wc : String) (el : Nat)
       (up : UpstreamResult) (url : String) (hs : HeaderMap) (b : String),
      (handle_request maxBody router ⟨mth, p, pq, hdrs, ""⟩ co startTs wc el
          up).upstream = some (url, hs, b) →
      b = "") := by
  refine ⟨fun _ _ => rfl, ?_⟩
  intro maxBody router mth p pq hdrs co startTs wc el up url hs b hup
  rw [handle_request_eq_forwardPhase maxBody router ⟨mth, p, pq, hdrs, ""⟩ co
    startTs wc el up none (by simp) rfl] at hup
  rcases forwardPhase_upstream_cases maxBody
      (router.resolve (extractedModel none) (extractedMessages none) co)
      none ⟨mth, p, pq, hdrs, ""⟩ (extractedModel none) startTs wc el up with
    hnone | hsome
  · rw [hnone] at hup
    exact absurd hup (by simp)
  · rw [hsome] at hup
    have htriple := Option.some.inj hup
    have hb := congrArg (fun t : String × HeaderMap × String => t.2.2) htriple
    cases hmr :
        (router.resolve (extractedModel none) (extractedMessages none)
          co).model_rewrite with
    | none =>
      rw [hmr] at hb
      exact hb.symm
    | some nm =>
      rw [hmr] at hb
      exact hb.symm

/-- Witness for `rewrite_model_empty_body_frame` at a concrete GET request
with an empty body: the forwarded body is empty. -/
theorem rewrite_model_empty_body_frame_witness : ("" : String) = "" :=
  rewrite_model_empty_body_frame.2 10485760 Croxy.Routing.cexPatternRouter "GET"
    "/v1/models" "/v1/models" [] none 0 "2024-01-01T00:00:00+00:00" 5
    (UpstreamResult.ok 200 [] "\x7b\"data\":[]\x7d")
    "http://def/v1/models" [] "" rfl

end Croxy.Proxy

namespace Croxy.Proxy

open Croxy.Routing (Router ResolvedRoute CompiledRoute)
open Croxy.Metrics (RoutingMethod)

/-- C4: once a request passes the body cap and JSON phases, if its path
contains `/count_tokens` and the resolved route carries
`stub_count_tokens`, `handle_request` returns `200` with body
`{"input_tokens":0}` and content-type `application/json`, inserts no
metrics record and does not contact the upstream. -/
theorem handle_request_count_tokens_stub
    (maxBody : Nat) (router : Router) (req : Inbound) (co : Option String)
    (startTs : Int) (wc : String) (el : Nat) (up : UpstreamResult)
    (bj : Option Json)
    (hcap : ¬ maxBody < req.body.length)
    (hpb : parsedBody req.body = some bj)
    (hstub : (containsSubstr req.path "/count_tokens" &&
      (router.resolve (extractedModel bj) (extractedMessages bj)
        co).stub_count_tokens) = true) :
    handle_request maxBody router req co startTs wc el up =
      { status := 200, headers := [("content-type", "application/json")],
        body := stub_body, upstream := none, events := [] } := by
  rw [handle_request_eq_forwardPhase maxBody router req co startTs wc el up bj
    hcap hpb]
  unfold forwardPhase
  rw [if_pos hstub]

/-- Router used by the stub-count-tokens witness: a pattern route to a
provider with `stub_count_tokens` set (scenario S1/S2 of the spec). -/
def stubRouter : Router :=
  { routes := [{ pattern := fun s => containsSubstr s "sonnet",
                 provider_name := "ollama", provider_url := "http://localhost:11434",
                 model_rewrite := some "qwen3-coder:30b", strip_auth := true,
                 api_key := some "ollama", stub_count_tokens := true }]
    auto_routes := []
    auto_candidates := []
    auto_router_config := none
    default := { provider_name := "anthropic",
                 provider_url := "https://api.anthropic.com",
                 model_rewrite := none, strip_auth := false, api_key := none,
                 stub_count_tokens := false,
                 routing_method := RoutingMethod.Default } }

/-- Witness for `handle_request_count_tokens_stub`: the S2 scenario. -/
theorem handle_request_count_tokens_stub_witness :
    handle_request 10485760 stubRouter
      { method := "POST", path := "/v1/messages/count_tokens",
        pathAndQuery := "/v1/messages/count_tokens",
        headers := [("content-type", "application/json")],
        body := "\x7b\"model\":\"claude-sonnet-4-5\"\x7d" }
      none 0 "2024-01-01T00:00:00+00:00" 5 UpstreamResult.transportError =
      { status := 200, headers := [("content-type", "application/json")],
        body := stub_body, upstream := none, events := [] } :=
  handle_request_count_tokens_stub 10485760 stubRouter
    { method := "POST", path := "/v1/messages/count_tokens",
      pathAndQuery := "/v1/messages/count_tokens",
      headers := [("content-type", "application/json")],
      body := "\x7b\"model\":\"claude-sonnet-4-5\"\x7d" }
    none 0 "2024-01-01T00:00:00+00:00" 5 UpstreamResult.transportError
    (some (Json.obj [("model", Json.str "claude-sonnet-4-5")]))
    (by decide) rfl rfl

/-- Router and request for the C1 counterexample. -/
def c1Router : Router :=
  { routes := []
    auto_routes := []
    auto_candidates := []
    auto_router_config := none
    default := { provider_name := "a", provider_url := "http://127.0.0.1:1",
                 model_rewrite := none, strip_auth := false, api_key := none,
                 stub_count_tokens := false,
                 routing_method := RoutingMethod.Default } }

def c1Req : Inbound :=
  { method := "POST", path := "/v1/messages", pathAndQuery := "/v1/messages",
    headers := [("content-type", "application/json")], body := "" }

/-- C1 counterexample: on a transport-level upstream failure the handler
returns `502` with a short reason but performs NO metrics-store
interaction — no record with status 502 is inserted. -/
theorem handle_request_transport_failure_no_record_cex :
    (handle_request 1024 c1Router c1Req none 0 "2024-01-01T00:00:00+00:00" 5
      UpstreamResult.transportError).status = 502 ∧
    (handle_request 1024 c1Router c1Req none 0 "2024-01-01T00:00:00+00:00" 5
      UpstreamResult.transportError).body = "provider unreachable" ∧
    (handle_request 1024 c1Router c1Req none 0 "2024-01-01T00:00:00+00:00" 5
      UpstreamResult.transportError).events = [] := ⟨rfl, rfl, rfl⟩

/-- C1 amended: for every inbound request whose upstream send fails at the
transport level (after passing the body phases and not hitting the
count-tokens stub), `handle_request` returns `502 Bad Gateway` with a short
textual reason and inserts no metrics record. -/
theorem handle_request_transport_failure_502_amended
    (maxBody : Nat) (router : Router) (req : Inbound) (co : Option String)
    (startTs : Int) (wc : String) (el : Nat) (bj : Option Json)
    (hcap : ¬ maxBody < req.body.length)
    (hpb : parsedBody req.body = some bj)
    (hnostub : (containsSubstr req.path "/count_tokens" &&
      (router.resolve (extractedModel bj) (extractedMessages bj)
        co).stub_count_tokens) = false) :
    (handle_request maxBody router req co startTs wc el
      UpstreamResult.transportError).status = 502 ∧
    (handle_request maxBody router req co startTs wc el
      UpstreamResult.transportError).body = "provider unreachable" ∧
    (handle_request maxBody router req co startTs wc el
      UpstreamResult.transportError).events = [] := by
  rw [handle_request_eq_forwardPhase maxBody router req co startTs wc el
    UpstreamResult.transportError bj hcap hpb]
  unfold forwardPhase
  rw [if_neg (by simp [hnostub])]
  exact ⟨rfl, rfl, rfl⟩

/-- Witness for `handle_request_transport_failure_502_amended`. -/
theorem handle_request_transport_failure_502_amended_witness :
    (handle_request 1024 c1Router c1Req none 0 "2024-01-01T00:00:00+00:00" 5
      UpstreamResult.transportError).events = [] :=
  (handle_request_transport_failure_502_amended 1024 c1Router c1Req none 0
    "2024-01-01T00:00:00+00:00" 5 none (by decide) rfl rfl).2.2

end Croxy.Proxy

namespace Croxy.Metrics

lemma idxLookup_buildIndex_append (l : List RequestRecord) (x : RequestRecord)
    (n : Nat) (hne : ∀ r ∈ l, r.id ≠ x.id) :
    idxLookup (buildIndex (l ++ [x]) n) x.id = some (n + l.length) := by
  induction l generalizing n with
  | nil => simp [buildIndex, idxLookup]
  | cons r rest ih =>
    have hr : r.id ≠ x.id := hne r (List.mem_cons_self r rest)
    have hrest : ∀ q ∈ rest, q.id ≠ x.id := fun q hq => hne q (List.mem_cons_of_mem r hq)
    show idxLookup ((r.id, n) :: buildIndex (rest ++ [x]) (n + 1)) x.id = _
    unfold idxLookup
    rw [if_neg hr, ih (n + 1) hrest]
    congr 1
    simp only [List.length_cons]
    omega

lemma concat_set_length {α : Type} (l : List α) (x y : α) :
    (l ++ [x]).set l.length y = l ++ [y] := by
  induction l with
  | nil => rfl
  | cons a rest ih => simp [List.set, ih]

lemma concat_get?_length {α : Type} (l : List α) (x : α) :
    (l ++ [x]).get? l.length = some x := by
  induction l with
  | nil => rfl
  | cons a rest ih => simp [List.get?, ih]

/-- C6: after `record_pending` returns `id` and `evict_expired` removes the
expired records (the pending record itself still live), `finalize_stream id
o d` updates exactly the pending record — the surviving records keep their
order and values, and the pending record's `output_tokens` and `duration`
become `o` and `d`; `finalize_stream` with an id absent from the index is a
no-op. -/
theorem finalize_after_evict_updates_exactly
    (s : StoreState) (rec : RequestRecord) (now window : Int) (o d : Nat)
    (hwf : ∀ r ∈ s.records, r.id < s.next_id)
    (hlive : now - window ≤ rec.timestamp) :
    (finalize_stream (evict_expired (record_pending s rec).2 now window)
        (record_pending s rec).1 o d).records =
      s.records.filter (fun r => decide (now - window ≤ r.timestamp)) ++
        [{ rec with id := s.next_id, output_tokens := o, duration := d }] ∧
    (∀ (s' : StoreState) (id o' d' : Nat),
      idxLookup s'.id_index id = none → finalize_stream s' id o' d' = s') := by
  constructor
  · have hid : (record_pending s rec).1 = s.next_id := rfl
    rw [hid]
    have hstep1 : evict_expired (record_pending s rec).2 now window =
        { records := (s.records ++ [{ rec with id := s.next_id }]).filter
            (fun r => decide (now - window ≤ r.timestamp)),
          id_index := buildIndex ((s.records ++ [{ rec with id := s.next_id }]).filter
            (fun r => decide (now - window ≤ r.timestamp))) 0,
          next_id := s.next_id + 1 } := rfl
    rw [hstep1]
    have hp : decide (now - window ≤ rec.timestamp) = true := by
      rw [decide_eq_true_eq]
      exact hlive
    have hfa : (s.records ++ [{ rec with id := s.next_id }]).filter
        (fun r => decide (now - window ≤ r.timestamp)) =
        s.records.filter (fun r => decide (now - window ≤ r.timestamp)) ++
          [{ rec with id := s.next_id }] := by
      rw [List.filter_append]
      congr 1
      simp only [List.filter, hp]
    rw [hfa]
    have hne : ∀ q ∈ s.records.filter (fun r => decide (now - window ≤ r.timestamp)),
        q.id ≠ ({ rec with id := s.next_id } : RequestRecord).id := by
      intro q hq
      exact Nat.ne_of_lt (hwf q (List.mem_of_mem_filter hq))
    have hlk : idxLookup
        (buildIndex (s.records.filter (fun r => decide (now - window ≤ r.timestamp)) ++
          [{ rec with id := s.next_id }]) 0) s.next_id =
        some (s.records.filter (fun r => decide (now - window ≤ r.timestamp))).length := by
      simpa using idxLookup_buildIndex_append
        (s.records.filter (fun r => decide (now - window ≤ r.timestamp)))
        { rec with id := s.next_id } 0 hne
    unfold finalize_stream
    simp only [hlk, concat_get?_length]
    rw [concat_set_length]
  · intro s' id o' d' h
    unfold finalize_stream
    rw [h]

/-- Store and records for the C6 witness. -/
def c6Expired : RequestRecord := { c8Record with id := 1, timestamp := 0 }

def c6Pending : RequestRecord := { c8Record with id := 0, timestamp := 90 }

def c6Store : StoreState :=
  { records := [c6Expired], id_index := [(1, 0)], next_id := 2 }

/-- Witness for `finalize_after_evict_updates_exactly`: an expired record is
evicted between insertion and finalization, and finalization by id still
updates exactly the pending record. -/
theorem finalize_after_evict_updates_exactly_witness :
    (finalize_stream
        (evict_expired (record_pending c6Store c6Pending).2 100 60)
        (record_pending c6Store c6Pending).1 777 9).records =
      [{ c6Pending with id := 2, output_tokens := 777, duration := 9 }] :=
  (finalize_after_evict_updates_exactly c6Store c6Pending 100 60 777 9
    (by decide) (by decide)).1

end Croxy.Metrics

namespace Croxy.MetricsLog

lemma fsLookup_fsRemove_ne (fs : List (Nat × List String)) (i j : Nat)
    (h : j ≠ i) : fsLookup (fsRemove fs i) j = fsLookup fs j := by
  induction fs with
  | nil => rfl
  | cons kv rest ih =>
    obtain ⟨k, c⟩ := kv
    by_cases hk : k = i
    · have hkj : ¬ (k = j) := fun he => h (hk ▸ he.symm)
      simp [fsRemove, hk, fsLookup, hkj, ih, Ne.symm h]
    · by_cases hj : k = j
      · simp [fsRemove, hk, fsLookup, hj, h]
      · simp [fsRemove, hk, fsLookup, hj, ih]

lemma fsRemove_bound (fs : List (Nat × List String)) (i m : Nat)
    (hb : ∀ p ∈ fs, p.1 ≤ m) : ∀ p ∈ fsRemove fs i, p.1 ≤ m := by
  induction fs with
  | nil => intro p hp; cases hp
  | cons kv rest ih =>
    intro p hp
    by_cases hk : kv.1 = i
    · exact ih (fun q hq => hb q (List.mem_cons_of_mem kv hq)) p
        (by simpa [fsRemove, hk] using hp)
    · rw [show fsRemove (kv :: rest) i = kv :: fsRemove rest i by
        simp [fsRemove, hk]] at hp
      rcases List.mem_cons.mp hp with h1 | h2
      · exact h1 ▸ hb kv (List.mem_cons_self kv rest)
      · exact ih (fun q hq => hb q (List.mem_cons_of_mem kv hq)) p h2

lemma fsRename_bound (fs : List (Nat × List String)) (src dst m : Nat)
    (hb : ∀ p ∈ fs, p.1 ≤ m) (hdst : dst ≤ m) :
    ∀ p ∈ fsRename fs src dst, p.1 ≤ m := by
  unfold fsRename
  cases hc : fsLookup fs src with
  | none => exact hb
  | some c =>
    intro p hp
    unfold fsSet at hp
    rcases List.mem_cons.mp hp with h1 | h2
    · exact h1 ▸ hdst
    · exact fsRemove_bound (fsRemove fs src) dst m
        (fsRemove_bound fs src m hb) p h2

lemma shiftDown_bound (m : Nat) : ∀ (n : Nat) (fs : List (Nat × List String)),
    (∀ p ∈ fs, p.1 ≤ m) → n + 1 ≤ m → ∀ p ∈ shiftDown fs n, p.1 ≤ m := by
  intro n
  induction n with
  | zero => intro fs hb _; exact hb
  | succ k ih =>
    intro fs hb hn
    unfold shiftDown
    exact ih (fsRename fs (k + 1) (k + 2)) (fsRename_bound fs (k + 1) (k + 2) m hb hn)
      (Nat.le_of_succ_le hn)

lemma fsLookup_none_of_bound (fs : List (Nat × List String)) (m i : Nat)
    (hb : ∀ p ∈ fs, p.1 ≤ m) (hi : m < i) : fsLookup fs i = none := by
  induction fs with
  | nil => rfl
  | cons kv rest ih =>
    obtain ⟨k, c⟩ := kv
    have hk : k ≠ i := by
      intro he
      have := hb (k, c) (List.mem_cons_self _ _)
      omega
    simp only [fsLookup, if_neg hk]
    exact ih (fun q hq => hb q (List.mem_cons_of_mem _ hq))

/-- C7: when a write brings the active file's size to at least `max_size`
(`max_size_mb · 1 MiB`), rotation runs: afterwards `path.1` holds exactly
the lines the active file held immediately before rotation (the old
content plus the line just written), the active file is fresh and empty,
and — provided no rotated index exceeded `max_files` beforehand and
`max_files ≥ 1` — no rotated file with index greater than `max_files`
exists. -/
theorem write_line_rotation_preserves_newest
    (st : LoggerState) (line : String)
    (hmf : 1 ≤ st.max_files)
    (hbound : ∀ p ∈ st.fs, p.1 ≤ st.max_files)
    (htrig : st.max_size ≤ logSize (st.active ++ [line])) :
    fsLookup (write_line st line).fs 1 = some (st.active ++ [line]) ∧
    (∀ i, st.max_files < i → fsLookup (write_line st line).fs i = none) ∧
    (write_line st line).active = [] := by
  have hnot : ¬ logSize (st.active ++ [line]) < st.max_size := not_lt.mpr htrig
  have hw : write_line st line = rotate { st with active := st.active ++ [line] } := by
    unfold write_line
    rw [if_neg hnot]
  rw [hw]
  unfold rotate
  have hb2 : ∀ p ∈ shiftDown (fsRemove st.fs st.max_files) (st.max_files - 1),
      p.1 ≤ st.max_files :=
    shiftDown_bound st.max_files (st.max_files - 1)
      (fsRemove st.fs st.max_files)
      (fsRemove_bound st.fs st.max_files st.max_files hbound)
      (by omega)
  refine ⟨?_, ?_, rfl⟩
  · show fsLookup (fsSet _ 1 (st.active ++ [line])) 1 = some (st.active ++ [line])
    unfold fsSet
    simp [fsLookup]
  · intro i hi
    show fsLookup (fsSet _ 1 (st.active ++ [line])) i = none
    unfold fsSet
    have h1 : i ≠ 1 := by omega
    simp only [fsLookup, if_neg (fun he : (1 : Nat) = i => h1 he.symm)]
    rw [fsLookup_fsRemove_ne _ _ _ h1]
    exact fsLookup_none_of_bound _ st.max_files i hb2 hi

/-- Concrete logger state for the C7 witness: `max_size_mb = 0` (so every
write triggers rotation, as in the repository's own rotation test),
`max_files = 2`, with one rotated file already present. -/
def c7State : LoggerState :=
  { fs := [(1, ["line1"])], active := ["line2"], max_size := 0, max_files := 2 }

/-- Witness for `write_line_rotation_preserves_newest` at a concrete state. -/
theorem write_line_rotation_preserves_newest_witness :
    fsLookup (write_line c7State "line3").fs 1 = some ["line2", "line3"] ∧
    fsLookup (write_line c7State "line3").fs 3 = none ∧
    (write_line c7State "line3").active = [] := by
  have h := write_line_rotation_preserves_newest c7State "line3"
    (by decide) (by decide) (by decide)
  exact ⟨h.1, h.2.1 3 (by decide), h.2.2⟩

end Croxy.MetricsLog
